import Mathlib

/-!
Verification of the claude-sdlc workflow core against its specification.

The Python sources are shallowly embedded: Python strings become `List Char`
(written `Str` below), subprocess results become explicit parameters, and each
library function becomes a Lean function with the same name and the same
control flow.  The regular expressions used by the source operate on
whitespace-normalized text, where each of them is equivalent to the explicit
scanning functions defined here (the equivalences are noted at each point of
use).
-/

/-- Python strings are sequences of code points; we embed them as `List Char`. -/
abbrev Str := List Char

/-- Coerce a Lean string literal into the embedding type. -/
def str (s : String) : Str := s.data

/-- Apostrophe character (used by one of the plan-only phrasings). -/
def apoChar : Char := Char.ofNat 39

/-- Python `str.lower()` restricted to the characters used here. -/
def lowerStr (s : Str) : Str := s.map Char.toLower

/-- Python `sub in s` (substring containment). -/
def containsSub : Str → Str → Bool
  | [], sub => sub.isPrefixOf []
  | c :: rest, sub => sub.isPrefixOf (c :: rest) || containsSub rest sub

/-- Python `str.strip()`: drop whitespace from both ends. -/
def stripWs (s : Str) : Str :=
  ((s.dropWhile Char.isWhitespace).reverse.dropWhile Char.isWhitespace).reverse

/-- Python `str.split()` (no separator): whitespace runs split, empties dropped. -/
def splitWs (s : Str) : List Str :=
  (s.splitOnP Char.isWhitespace).filter (fun x => x ≠ [])

/-- Python `" ".join(s.split())`: whitespace normalization, as in
`parse_agent_command` line 40 of `sdlc/lib/agent.py`. -/
def normalizeWs (s : Str) : Str :=
  List.intercalate (str " ") (splitWs s)

/-! ## Command resolution (`sdlc/lib/claude.py`)

`check_slash_command_exists` probes two registries: the caller-local
user-defined commands and the installed SDLC plugin command files.  The
embedding carries both registries in a `CommandWorld` so that claims about
user-defined commands can be stated; the source function itself reads only the
plugin files (its first branch returns `False` for every command that does not
start with `/sdlc:`, deliberately ignoring user-defined commands). -/

/-- Filesystem/registry state visible to command resolution. -/
structure CommandWorld where
  /-- Commands defined in the caller-local (user) registry, e.g. "/feature". -/
  userDefined : List Str
  /-- Names of plugin command files `plugins/sdlc/commands/<name>.md`. -/
  pluginCommands : List Str

/-- Python `str.replace(old, new)` with `new = ""`: remove every occurrence
of `old`, scanning left to right and continuing after each removed span.
Structural recursion on an explicit fuel (each step consumes at least one
character, so the input length is enough fuel; see `removeOccurrences`). -/
def removeOccurrencesFuel (old : Str) : Nat → Str → Str
  | 0, s => s
  | _ + 1, [] => []
  | fuel + 1, c :: rest =>
    if old ≠ [] ∧ old.isPrefixOf (c :: rest) then
      removeOccurrencesFuel old fuel ((c :: rest).drop old.length)
    else
      c :: removeOccurrencesFuel old fuel rest

/-- Python `str.replace(old, "")`. -/
def removeOccurrences (old : Str) (s : Str) : Str :=
  removeOccurrencesFuel old s.length s

/-- `check_slash_command_exists` (`sdlc/lib/claude.py:279`): always `False`
for commands that do not start with `/sdlc:`; otherwise strips the namespace
marker (Python `str.replace`) and checks the plugin command file. -/
def check_slash_command_exists (w : CommandWorld) (slash_command : Str) : Bool :=
  if ¬ (str "/sdlc:").isPrefixOf slash_command then
    false
  else
    (removeOccurrences (str "/sdlc:") slash_command) ∈ w.pluginCommands

/-- Python `str.lstrip('/')`. -/
def lstripSlash (s : Str) : Str := s.dropWhile (fun c => c = '/')

/-- `resolve_slash_command` (`sdlc/lib/claude.py:309`): user-defined probe,
then plugin fallback, then the original command unchanged. -/
def resolve_slash_command (w : CommandWorld) (base_command : Str) : Str :=
  if check_slash_command_exists w base_command then
    base_command
  else
    let sdlc_command := str "/sdlc:" ++ lstripSlash base_command
    if check_slash_command_exists w sdlc_command then
      sdlc_command
    else
      base_command

/-! ## Agent invoker stream handling (`sdlc/lib/claude.py:execute_claude_command`)

The external process is abstracted by the sequence of stdout lines it emits,
its exit outcome, and its stderr content.  Each stdout line either fails JSON
parsing or yields a JSON object; for parseable lines only the string-valued
keys `session_id` and `result` are relevant to the source. -/

/-- The keys of a parseable JSONL event that the source inspects. -/
structure ParsedLine where
  /-- Value of the `session_id` key, when present. -/
  sessionId : Option Str
  /-- Value of the `result` key, when present. -/
  resultVal : Option Str

/-- One line of the agent process stdout stream. -/
inductive OutLine
  /-- A line that is not valid JSON (`json.JSONDecodeError` path: skipped). -/
  | invalid (text : Str)
  /-- A line parsing to a JSON object. -/
  | json (text : Str) (p : ParsedLine)

/-- The raw text of a stream line (what is written to the transcript). -/
def OutLine.text : OutLine → Str
  | .invalid t => t
  | .json t _ => t

/-- How the agent process terminates. -/
inductive ExitOutcome
  /-- `process.wait` returns this exit code. -/
  | code (n : Int)
  /-- `process.wait` raises `subprocess.TimeoutExpired`. -/
  | timedOut

/-- The per-line update of `(session_id, output_text)` performed inside the
streaming loop (`claude.py:107-112`): a parseable line with a `session_id`
key overwrites the running session id, one with a `result` key overwrites the
running output; invalid lines change nothing. -/
def processLine (acc : Option Str × Str) (l : OutLine) : Option Str × Str :=
  match l with
  | .invalid _ => acc
  | .json _ p =>
    let sid := match p.sessionId with
      | some v => some v
      | none => acc.1
    let out := match p.resultVal with
      | some v => v
      | none => acc.2
    (sid, out)

/-- The `(session_id, output_text)` pair after the whole stream is consumed;
initial state `(None, "")` as in `claude.py:91-92`. -/
def streamExtract (lines : List OutLine) : Option Str × Str :=
  lines.foldl processLine (none, str "")

/-- Final location of the transcript file. -/
inductive TranscriptPath
  /-- The provisional name `streaming.jsonl` chosen before the stream starts. -/
  | provisional
  /-- Renamed to `<session_id>.jsonl` (`claude.py:133-136`). -/
  | bySession (sid : Str)
deriving DecidableEq

/-- The transcript file at the end of the invocation. -/
structure TranscriptState where
  /-- Where the file ends up. -/
  path : TranscriptPath
  /-- The lines it holds, in arrival order (every stream line is written
  before any parsing is attempted, `claude.py:101-104`). -/
  content : List Str
deriving DecidableEq

/-- `execute_claude_command` (`sdlc/lib/claude.py:36-163`) for an invocation
that opened a transcript file (an `agent_name` was supplied).  Returns the
`(success, output, session_id)` triple together with the final transcript
state.  The streaming loop always runs to stream end; `process.wait` then
either returns an exit code or raises a timeout.  On the timeout (exception)
path the handle is never closed and no rename happens.  On the exit-code path
the file is closed and renamed whenever a session id was captured — this
happens before the exit code is inspected. -/
def execute_claude_command (lines : List OutLine) (exit : ExitOutcome)
    (stderr : Str) : (Bool × Str × Option Str) × TranscriptState :=
  let written := lines.map OutLine.text
  let acc := streamExtract lines
  match exit with
  | .timedOut =>
    ((false, str "Claude command timed out after 600 seconds", none),
      ⟨.provisional, written⟩)
  | .code n =>
    let tpath : TranscriptPath := match acc.1 with
      | some sid => .bySession sid
      | none => .provisional
    if n ≠ 0 then
      ((false, str "Claude command failed with code " ++ str (toString n)
          ++ str ": " ++ stderr, none),
        ⟨tpath, written⟩)
    else
      ((true, acc.2, acc.1), ⟨tpath, written⟩)

/-- Modelled from the spec: "the returned `session_id` is the value of the
first parseable JSON line containing a `session_id` key (first occurrence
wins and is retained)".  The source has no first-occurrence guard; this
definition exists only to compare the claim with the code. -/
def firstSessionId (lines : List OutLine) : Option Str :=
  lines.findSome? fun l =>
    match l with
    | .invalid _ => none
    | .json _ p => p.sessionId

/-- Last-occurrence characterization used by the amended claim: the session id
of the last parseable line carrying one. -/
def lastSessionId (lines : List OutLine) : Option Str :=
  lines.reverse.findSome? fun l =>
    match l with
    | .invalid _ => none
    | .json _ p => p.sessionId

/-- Last-occurrence characterization for `result` values. -/
def lastResultVal (lines : List OutLine) : Option Str :=
  lines.reverse.findSome? fun l =>
    match l with
    | .invalid _ => none
    | .json _ p => p.resultVal

/-! ## Comment parser (`sdlc/lib/agent.py:parse_agent_command`)

The source applies Python regular expressions to whitespace-normalized text.
On such text (whose only whitespace is single spaces, except for double spaces
introduced by span removal) each regex is equivalent to an explicit scan:

* each plan-only pattern is a fixed alternation of literal words joined by
  `\s+`, i.e. a case-insensitive literal-set match;
* `re.sub(pat, '', text, IGNORECASE)` removes every non-overlapping
  occurrence, scanning left to right and continuing after each match;
* the trigger regex `sdlc\s+(/(?:feature|bug|chore))?\s*(.*)` matches at the
  first position where `sdlc` is followed by whitespace; the greedy `\s+`
  consumes the whitespace run, the optional group tries the three selector
  literals in order, `\s*` consumes the following run, and `(.*)` takes the
  rest of the line. -/

/-- Case-insensitive match of one of the (lowercase, nonempty) literal
alternatives `alts` as a prefix of `s`; returns the matched length.
Alternatives are tried in order, as a regex alternation does. -/
def ciMatchLen (alts : List Str) (s : Str) : Option Nat :=
  alts.findSome? fun a =>
    if a ≠ [] ∧ lowerStr (s.take a.length) = a then some a.length else none


/-- `re.search` of a literal-alternation pattern: does it match anywhere? -/
def ciSearch (alts : List Str) : Str → Bool
  | [] => (ciMatchLen alts []).isSome
  | c :: rest => (ciMatchLen alts (c :: rest)).isSome || ciSearch alts rest

/-- `re.sub(pat, '', text, IGNORECASE)` for a literal-alternation pattern:
remove every non-overlapping occurrence, scanning left to right (fuel form:
every match consumes at least one character, `ciMatchLen_pos`). -/
def removeAllCIFuel (alts : List Str) : Nat → Str → Str
  | 0, s => s
  | _ + 1, [] => []
  | fuel + 1, c :: rest =>
    match ciMatchLen alts (c :: rest) with
    | some n => removeAllCIFuel alts fuel ((c :: rest).drop n)
    | none => c :: removeAllCIFuel alts fuel rest

/-- `re.sub(pat, '', text, IGNORECASE)`, with enough fuel for the input. -/
def removeAllCI (alts : List Str) (s : Str) : Str :=
  removeAllCIFuel alts s.length s

/-- The plan-only patterns of `agent.py:43-50`, as literal alternations on
whitespace-normalized text (the apostrophe of the third pattern is optional:
two alternatives). -/
def plan_only_patterns : List (List Str) :=
  [ [str "--plan-only"],
    [str "plan only"],
    [str "don" ++ [apoChar] ++ str "t implement", str "dont implement"],
    [str "no implementation"],
    [str "skip implementation"],
    [str "planning only"] ]

/-- The selector alternatives of the trigger regex group
`(/(?:feature|bug|chore))`, in alternation order. -/
def commandAlts : List Str := [str "/feature", str "/bug", str "/chore"]

/-- Try the trigger regex `sdlc\s+(/(?:feature|bug|chore))?\s*(.*)` anchored
at the start of `s` (case-insensitive); on a match return
`(group(1), group(2))`.  Group 1 keeps the original casing of the matched
selector, as `re` group extraction does. -/
def sdlcMatchAt (s : Str) : Option (Option Str × Str) :=
  if lowerStr (s.take 4) = str "sdlc" ∧ (s.drop 4).head?.any Char.isWhitespace then
    let r1 := (s.drop 4).dropWhile Char.isWhitespace
    match ciMatchLen commandAlts r1 with
    | some n => some (some (r1.take n), (r1.drop n).dropWhile Char.isWhitespace)
    | none => some (none, r1)
  else
    none

/-- `re.search` for the trigger regex: first matching position wins. -/
def sdlcSearch : Str → Option (Option Str × Str)
  | [] => sdlcMatchAt []
  | c :: rest =>
    match sdlcMatchAt (c :: rest) with
    | some r => some r
    | none => sdlcSearch rest

/-- `re.sub(r'sdlc\s*', '', text, IGNORECASE)`: remove every occurrence of
`sdlc` together with the greedy whitespace run that follows it (fuel form:
every match consumes at least four characters). -/
def removeSdlcTokenFuel : Nat → Str → Str
  | 0, s => s
  | _ + 1, [] => []
  | fuel + 1, c :: rest =>
    if lowerStr ((c :: rest).take 4) = str "sdlc" then
      removeSdlcTokenFuel fuel (((c :: rest).drop 4).dropWhile Char.isWhitespace)
    else
      c :: removeSdlcTokenFuel fuel rest

/-- `re.sub(r'sdlc\s*', '', text, IGNORECASE)`, with enough fuel. -/
def removeSdlcToken (s : Str) : Str :=
  removeSdlcTokenFuel s.length s

/-- `parse_agent_command` (`sdlc/lib/agent.py:22-71`): whitespace-normalize,
detect and remove the first matching plan-only pattern, then match the
trigger regex; on no trigger match, defensively strip the trigger token. -/
def parse_agent_command (comment_body : Str) : Option Str × Str × Bool :=
  let text := normalizeWs comment_body
  let step1 : Bool × Str :=
    match plan_only_patterns.find? (fun p => ciSearch p text) with
    | some p => (true, stripWs (removeAllCI p text))
    | none => (false, text)
  match sdlcSearch step1.2 with
  | some (command, remaining) => (command, stripWs remaining, step1.1)
  | none => (none, stripWs (removeSdlcToken step1.2), step1.1)

/-! ## Plan-file location (`sdlc/lib/agent.py:locate_plan_file`)

The `git status --porcelain` call is abstracted by its outcome: the captured
stdout on success, or the stderr of a `CalledProcessError`. -/

/-- The line filter of `agent.py:263`: any status line containing one of the
two directory substrings and ending in `.md` — the two-character status code
is never inspected. -/
def specLineMatch (line : Str) : Bool :=
  (containsSub line (str "specs/") || containsSub line (str "ai-specs/"))
    && (str ".md").isSuffixOf line

/-- `locate_plan_file` (`sdlc/lib/agent.py:224-285`): split the stripped
stdout on newlines, skip empty lines, collect paths (`line[3:]`, stripped) of
matching lines, return the first or the hard failure. -/
def locate_plan_file (git_status : Except Str Str) : Option Str × Option Str :=
  match git_status with
  | .error e => (none, some (str "Git status failed: " ++ e))
  | .ok stdout =>
    let ls := (stripWs stdout).splitOn '\n'
    let spec_files := (ls.filter (fun l => l ≠ [])).filterMap
      (fun line => if specLineMatch line then some (stripWs (line.drop 3)) else none)
    match spec_files with
    | [] => (none, some (str "No plan file found in git status"))
    | f :: _ => (some f, none)

/-- Modelled from the spec: the claim's reading of LOCATE_PLAN_FILE, which
selects only *new/untracked* markdown files — the porcelain status code must
mark the file as untracked (`??`) or newly added (`A`).  The source never
looks at the status code; this definition exists only for comparison. -/
def locate_plan_file_claim (git_status : Except Str Str) : Option Str × Option Str :=
  match git_status with
  | .error e => (none, some (str "Git status failed: " ++ e))
  | .ok stdout =>
    let ls := (stripWs stdout).splitOn '\n'
    let spec_files := (ls.filter (fun l => l ≠ [])).filterMap
      (fun line =>
        if specLineMatch line
            && ((str "??").isPrefixOf line || (str "A").isPrefixOf line) then
          some (stripWs (line.drop 3))
        else none)
    match spec_files with
    | [] => (none, some (str "No plan file found in git status"))
    | f :: _ => (some f, none)

/-! ## Commit step (`sdlc/lib/agent.py:commit_changes`)

The three subprocess calls (`git add .`, `aipr commit`, `git commit`) are
abstracted by their outcomes; `check=True` means a failure raises
`CalledProcessError`, caught by the surrounding handler. -/

/-- The external commands `commit_changes` can run. -/
inductive GitOp
  /-- `git add .` -/
  | add
  /-- `aipr commit -s -m claude` -/
  | aipr
  /-- `git commit -m <msg>` -/
  | commit
deriving DecidableEq

/-- Outcomes of the three subprocess calls inside `commit_changes`. -/
structure CommitEnv where
  /-- `git add .`: ok, or the stderr of a `CalledProcessError`. -/
  addResult : Except Str Unit
  /-- `aipr`: generated message on success, else stderr. -/
  aiprResult : Except Str Str
  /-- `git commit`: ok or stderr. -/
  commitResult : Except Str Unit

/-- What `commit_changes` returned and did. -/
structure CommitOutcome where
  /-- The returned success flag. -/
  ok : Bool
  /-- The returned error message. -/
  error : Option Str
  /-- Whether the `git add .` side effect has been applied (and, the function
  containing no rollback, is still in place at return). -/
  staged : Bool
  /-- The external commands attempted, in order. -/
  ops : List GitOp
deriving DecidableEq

/-- `commit_changes` (`sdlc/lib/agent.py:288-346`): stage, generate message,
commit; the first `CalledProcessError` aborts with `(False, detail)`. -/
def commit_changes (env : CommitEnv) : CommitOutcome :=
  match env.addResult with
  | .error e =>
    { ok := false, error := some (str "Git commit failed: " ++ e),
      staged := false, ops := [.add] }
  | .ok _ =>
    match env.aiprResult with
    | .error e =>
      { ok := false, error := some (str "Git commit failed: " ++ e),
        staged := true, ops := [.add, .aipr] }
    | .ok _ =>
      match env.commitResult with
      | .error e =>
        { ok := false, error := some (str "Git commit failed: " ++ e),
          staged := true, ops := [.add, .aipr, .commit] }
      | .ok _ =>
        { ok := true, error := none, staged := true,
          ops := [.add, .aipr, .commit] }

/-! ## Workflow state machine (`sdlc/lib/agent.py:execute_agent_workflow` and
`sdlc/lib/gitlab_agent.py:execute_gitlab_agent_workflow`)

Each helper step is abstracted by the `AgentPromptResponse` of its agent
invocation (the helpers' own logic is embedded below); the workflow threads
Python truthiness checks (`if error:`) faithfully, so an empty-string error is
falsy.  The record returned collects the outcome, the steps invoked and every
issue comment posted, in order. -/

/-- The `(output, success)` part of an `AgentPromptResponse`. -/
structure AgentResponse where
  /-- `response.output`. -/
  output : Str
  /-- `response.success`. -/
  success : Bool

/-- Python truthiness of an `Optional[str]`. -/
def truthy : Option Str → Bool
  | none => false
  | some s => s ≠ []

/-- Python `f"{x}"` for an `Optional[str]`. -/
def pyFormatOpt : Option Str → Str
  | none => str "None"
  | some s => s

/-- `classify_issue` (`agent.py:74-133`) as a function of its agent response:
on success the stripped, lowered output must be one of the three selectors. -/
def classify_issue (resp : AgentResponse) : Option Str × Option Str :=
  if ¬ resp.success then
    (none, some resp.output)
  else
    let command := lowerStr (stripWs resp.output)
    if command ∈ [str "/feature", str "/bug", str "/chore"] then
      (some command, none)
    else
      (none, some (str "Invalid classification result: " ++ command))

/-- `create_branch` (`agent.py:136-179`) as a function of its agent response:
the stripped output is the branch name. -/
def create_branch (resp : AgentResponse) : Option Str × Option Str :=
  if ¬ resp.success then (none, some resp.output)
  else (some (stripWs resp.output), none)

/-- `build_plan` (`agent.py:182-221`): the raw output is the plan text. -/
def build_plan (resp : AgentResponse) : Option Str × Option Str :=
  if ¬ resp.success then (none, some resp.output)
  else (some resp.output, none)

/-- `implement_plan` (`agent.py:349-387`). -/
def implement_plan (resp : AgentResponse) : Option Str × Option Str :=
  if ¬ resp.success then (none, some resp.output)
  else (some resp.output, none)

/-- `create_pull_request` (`agent.py:390-434`): stripped output is the URL. -/
def create_pull_request (resp : AgentResponse) : Option Str × Option Str :=
  if ¬ resp.success then (none, some resp.output)
  else (some (stripWs resp.output), none)

/-- External-call outcomes a workflow run can consume, one per step. -/
structure WorkflowEnv where
  /-- `check_claude_installed()`. -/
  claudeInstalled : Bool
  /-- Agent response of the classification prompt. -/
  classifyResp : AgentResponse
  /-- Agent response of the `/branch` command. -/
  branchResp : AgentResponse
  /-- Agent response of the planning command. -/
  planResp : AgentResponse
  /-- Subprocess outcomes of the (single) `commit_changes` call. -/
  commitEnv : CommitEnv
  /-- `git status --porcelain` outcome for `locate_plan_file`. -/
  gitStatus : Except Str Str
  /-- Agent response of the `/implement` command. -/
  implementResp : AgentResponse
  /-- Agent response of the `/pull_request` command (GitHub variant). -/
  prResp : AgentResponse
  /-- Agent response of the `/locate` command (GitLab variant only). -/
  locateResp : AgentResponse
  /-- GitLab `create_merge_request` API outcome: exception detail, or the
  returned (possibly absent) MR URL. -/
  mrResult : Except Str (Option Str)

/-- The workflow steps named by the claims. -/
inductive Step
  | classify
  | createBranch
  | buildPlan
  | commitStep
  | locatePlanFile
  | implement
  | openRequest
deriving DecidableEq

/-- Outcome of one workflow run: returned pair, steps invoked, comments
posted (in order). -/
structure RunResult where
  /-- First component of the returned tuple. -/
  ok : Bool
  /-- Second component of the returned tuple. -/
  error : Option Str
  /-- The steps invoked, in order. -/
  steps : List Step
  /-- Every `make_issue_comment` body, in order. -/
  comments : List Str
deriving DecidableEq

/-- A GitHub failure comment starts with the cross mark (`agent.py` posts
`f"❌ ..."` exactly on the failure paths). -/
def isFailureComment (c : Str) : Bool := (str "❌").isPrefixOf c

/-- `execute_agent_workflow` (`sdlc/lib/agent.py:437-575`). -/
def execute_agent_workflow (env : WorkflowEnv) (adw_id : Str)
    (explicit_command : Option Str) (plan_only : Bool) : RunResult :=
  let idTag := str " (ADW ID: " ++ adw_id ++ str ")"
  if ¬ env.claudeInstalled then
    { ok := false, error := some (str "Claude Code CLI is not installed"),
      steps := [],
      comments := [str "❌ Claude Code CLI is not installed"] }
  else
    -- Step 1: determine command (explicit or classify)
    let step1 :
        (Option Str × List Step × List Str) ⊕ RunResult :=
      if truthy explicit_command then
        .inl (explicit_command, [],
          [str "✅ Using command: " ++ pyFormatOpt explicit_command ++ idTag])
      else
        let cr := classify_issue env.classifyResp
        if truthy cr.2 then
          .inr
            { ok := false, error := cr.2,
              steps := [.classify],
              comments := [str "❌ Classification failed: " ++ pyFormatOpt cr.2 ++ idTag] }
        else
          .inl (cr.1, [.classify],
            [str "✅ Classified as: " ++ pyFormatOpt cr.1 ++ idTag])
    match step1 with
    | .inr r => r
    | .inl (_command, steps1, comments1) =>
      -- Step 2: create branch
      let br := create_branch env.branchResp
      if truthy br.2 then
        { ok := false, error := br.2,
          steps := steps1 ++ [.createBranch],
          comments := comments1
            ++ [str "❌ Branch creation failed: " ++ pyFormatOpt br.2 ++ idTag] }
      else
        let comments2 := comments1
          ++ [str "✅ Created branch: " ++ pyFormatOpt br.1 ++ idTag]
        -- Step 3: build plan
        let pl := build_plan env.planResp
        if truthy pl.2 then
          { ok := false, error := pl.2,
            steps := steps1 ++ [.createBranch, .buildPlan],
            comments := comments2
              ++ [str "❌ Plan creation failed: " ++ pyFormatOpt pl.2 ++ idTag] }
        else
          let comments3 := comments2 ++ [str "✅ Plan created" ++ idTag]
          if plan_only then
            -- plan-only: commit and stop
            let co := commit_changes env.commitEnv
            if ¬ co.ok then
              { ok := false, error := co.error,
                steps := steps1 ++ [.createBranch, .buildPlan, .commitStep],
                comments := comments3
                  ++ [str "❌ Plan commit failed: " ++ pyFormatOpt co.error ++ idTag] }
            else
              { ok := true, error := none,
                steps := steps1 ++ [.createBranch, .buildPlan, .commitStep],
                comments := comments3
                  ++ [str "✅ Plan committed" ++ idTag,
                      str "✅ Plan-only workflow completed!" ++ idTag] }
          else
            -- Step 4: locate plan file
            let lp := locate_plan_file env.gitStatus
            if truthy lp.2 then
              { ok := false, error := lp.2,
                steps := steps1 ++ [.createBranch, .buildPlan, .locatePlanFile],
                comments := comments3
                  ++ [str "❌ Could not locate plan file: " ++ pyFormatOpt lp.2 ++ idTag] }
            else
              let comments4 := comments3
                ++ [str "✅ Plan file: " ++ pyFormatOpt lp.1 ++ idTag]
              -- Step 5: implement
              let im := implement_plan env.implementResp
              if truthy im.2 then
                { ok := false, error := im.2,
                  steps := steps1
                    ++ [.createBranch, .buildPlan, .locatePlanFile, .implement],
                  comments := comments4
                    ++ [str "❌ Implementation failed: " ++ pyFormatOpt im.2 ++ idTag] }
              else
                let comments5 := comments4 ++ [str "✅ Implementation completed" ++ idTag]
                -- Step 6: commit everything
                let co := commit_changes env.commitEnv
                if ¬ co.ok then
                  { ok := false, error := co.error,
                    steps := steps1
                      ++ [.createBranch, .buildPlan, .locatePlanFile, .implement,
                          .commitStep],
                    comments := comments5
                      ++ [str "❌ Commit failed: " ++ pyFormatOpt co.error ++ idTag] }
                else
                  let comments6 := comments5 ++ [str "✅ Changes committed" ++ idTag]
                  -- Step 7: create pull request
                  let pr := create_pull_request env.prResp
                  if truthy pr.2 then
                    { ok := false, error := pr.2,
                      steps := steps1
                        ++ [.createBranch, .buildPlan, .locatePlanFile, .implement,
                            .commitStep, .openRequest],
                      comments := comments6
                        ++ [str "❌ PR creation failed: " ++ pyFormatOpt pr.2 ++ idTag] }
                  else
                    { ok := true, error := none,
                      steps := steps1
                        ++ [.createBranch, .buildPlan, .locatePlanFile, .implement,
                            .commitStep, .openRequest],
                      comments := comments6
                        ++ [str "✅ Pull request created: " ++ pyFormatOpt pr.1 ++ idTag,
                            str "✅ Workflow completed! PR: " ++ pyFormatOpt pr.1 ++ idTag] }

/-- `classify_gitlab_issue` (`gitlab_agent.py:25-84`): identical validation
logic to the GitHub variant. -/
def classify_gitlab_issue (resp : AgentResponse) : Option Str × Option Str :=
  if ¬ resp.success then
    (none, some resp.output)
  else
    let command := lowerStr (stripWs resp.output)
    if command ∈ [str "/feature", str "/bug", str "/chore"] then
      (some command, none)
    else
      (none, some (str "Invalid classification result: " ++ command))

/-- `create_gitlab_branch` (`gitlab_agent.py:87-140`). -/
def create_gitlab_branch (resp : AgentResponse) : Option Str × Option Str :=
  if ¬ resp.success then (none, some resp.output)
  else (some (stripWs resp.output), none)

/-- `build_gitlab_plan` (`gitlab_agent.py:142-181`). -/
def build_gitlab_plan (resp : AgentResponse) : Option Str × Option Str :=
  if ¬ resp.success then (none, some resp.output)
  else (some resp.output, none)

/-- `locate_gitlab_plan_file` (`gitlab_agent.py:184-228`): the `/locate`
agent answers with a path or `"0"`. -/
def locate_gitlab_plan_file (resp : AgentResponse) : Option Str × Option Str :=
  if ¬ resp.success then (none, some resp.output)
  else
    let plan_file := stripWs resp.output
    if plan_file = str "0" ∨ plan_file = [] then
      (none, some (str "Plan file not found"))
    else
      (some plan_file, none)

/-- `implement_gitlab_plan` (`gitlab_agent.py:231-269`). -/
def implement_gitlab_plan (resp : AgentResponse) : Option Str × Option Str :=
  if ¬ resp.success then (none, some resp.output)
  else (some resp.output, none)

/-- `create_gitlab_merge_request` (`gitlab_agent.py:272-341`) as a function
of the `create_merge_request` API outcome. -/
def create_gitlab_merge_request (mr : Except Str (Option Str)) :
    Option Str × Option Str :=
  match mr with
  | .error e => (none, some (str "Error creating merge request: " ++ e))
  | .ok (some url) =>
    if url ≠ [] then (some url, none)
    else (none, some (str "Failed to create merge request"))
  | .ok none => (none, some (str "Failed to create merge request"))

/-- A GitLab failure comment starts with `Error:` (the GitLab variant posts
plain-text comments, `f"Error: ..."` exactly on the failure paths). -/
def isGitlabFailureComment (c : Str) : Bool := (str "Error:").isPrefixOf c

/-- `execute_gitlab_agent_workflow` (`sdlc/lib/gitlab_agent.py:343-484`):
same pipeline as the GitHub variant; plain-text comments, `/locate` instead
of `git status`, merge request instead of pull request. -/
def execute_gitlab_agent_workflow (env : WorkflowEnv) (adw_id : Str)
    (explicit_command : Option Str) (plan_only : Bool) : RunResult :=
  let idTag := str " (ADW ID: " ++ adw_id ++ str ")"
  if ¬ env.claudeInstalled then
    { ok := false, error := some (str "Claude Code CLI is not installed"),
      steps := [],
      comments := [str "Error: Claude Code CLI is not installed"] }
  else
    let step1 :
        (Option Str × List Step × List Str) ⊕ RunResult :=
      if truthy explicit_command then
        .inl (explicit_command, [],
          [str "Using command: " ++ pyFormatOpt explicit_command ++ idTag])
      else
        let cr := classify_gitlab_issue env.classifyResp
        if truthy cr.2 then
          .inr
            { ok := false, error := cr.2,
              steps := [.classify],
              comments := [str "Error: Classification failed: "
                ++ pyFormatOpt cr.2 ++ idTag] }
        else
          .inl (cr.1, [.classify],
            [str "Classified as: " ++ pyFormatOpt cr.1 ++ idTag])
    match step1 with
    | .inr r => r
    | .inl (_command, steps1, comments1) =>
      let br := create_gitlab_branch env.branchResp
      if truthy br.2 then
        { ok := false, error := br.2,
          steps := steps1 ++ [.createBranch],
          comments := comments1
            ++ [str "Error: Branch creation failed: " ++ pyFormatOpt br.2 ++ idTag] }
      else
        let comments2 := comments1
          ++ [str "Created branch: " ++ pyFormatOpt br.1 ++ idTag]
        let pl := build_gitlab_plan env.planResp
        if truthy pl.2 then
          { ok := false, error := pl.2,
            steps := steps1 ++ [.createBranch, .buildPlan],
            comments := comments2
              ++ [str "Error: Plan creation failed: " ++ pyFormatOpt pl.2 ++ idTag] }
        else
          let comments3 := comments2 ++ [str "Plan created" ++ idTag]
          if plan_only then
            let co := commit_changes env.commitEnv
            if ¬ co.ok then
              { ok := false, error := co.error,
                steps := steps1 ++ [.createBranch, .buildPlan, .commitStep],
                comments := comments3
                  ++ [str "Error: Plan commit failed: " ++ pyFormatOpt co.error ++ idTag] }
            else
              { ok := true, error := none,
                steps := steps1 ++ [.createBranch, .buildPlan, .commitStep],
                comments := comments3
                  ++ [str "Plan committed" ++ idTag,
                      str "Plan-only workflow completed!" ++ idTag] }
          else
            let lp := locate_gitlab_plan_file env.locateResp
            if truthy lp.2 then
              { ok := false, error := lp.2,
                steps := steps1 ++ [.createBranch, .buildPlan, .locatePlanFile],
                comments := comments3
                  ++ [str "Error: Could not locate plan file: "
                    ++ pyFormatOpt lp.2 ++ idTag] }
            else
              let comments4 := comments3
                ++ [str "Plan file: " ++ pyFormatOpt lp.1 ++ idTag]
              let im := implement_gitlab_plan env.implementResp
              if truthy im.2 then
                { ok := false, error := im.2,
                  steps := steps1
                    ++ [.createBranch, .buildPlan, .locatePlanFile, .implement],
                  comments := comments4
                    ++ [str "Error: Implementation failed: "
                      ++ pyFormatOpt im.2 ++ idTag] }
              else
                let comments5 := comments4 ++ [str "Implementation completed" ++ idTag]
                let co := commit_changes env.commitEnv
                if ¬ co.ok then
                  { ok := false, error := co.error,
                    steps := steps1
                      ++ [.createBranch, .buildPlan, .locatePlanFile, .implement,
                          .commitStep],
                    comments := comments5
                      ++ [str "Error: Commit failed: " ++ pyFormatOpt co.error ++ idTag] }
                else
                  let comments6 := comments5 ++ [str "Changes committed" ++ idTag]
                  let mr := create_gitlab_merge_request env.mrResult
                  if truthy mr.2 then
                    { ok := false, error := mr.2,
                      steps := steps1
                        ++ [.createBranch, .buildPlan, .locatePlanFile, .implement,
                            .commitStep, .openRequest],
                      comments := comments6
                        ++ [str "Error: MR creation failed: "
                          ++ pyFormatOpt mr.2 ++ idTag] }
                  else
                    { ok := true, error := none,
                      steps := steps1
                        ++ [.createBranch, .buildPlan, .locatePlanFile, .implement,
                            .commitStep, .openRequest],
                      comments := comments6
                        ++ [str "Merge request created: " ++ pyFormatOpt mr.1 ++ idTag,
                            str "Workflow completed! MR: " ++ pyFormatOpt mr.1 ++ idTag] }

/-! ## GitHub webhook dispatcher (`sdlc/commands/watcher.py:github_webhook`)

The HTTP request is abstracted by the event-type header and the payload
fields the handler reads.  `payload.get("issue", {}).get("number")` is either
absent or an integer (`0` and absence are both falsy). -/

/-- The payload fields read by the handler. -/
structure WebhookEvent where
  /-- The `X-GitHub-Event` header. -/
  eventType : Str
  /-- `payload["action"]` (defaulted to `""`). -/
  action : Str
  /-- `payload["issue"]["number"]` when present. -/
  issueNumber : Option Int
  /-- `payload["comment"]["body"]` (defaulted to `""`). -/
  commentBody : Str

/-- Python truthiness of the extracted issue number. -/
def truthyNum : Option Int → Bool
  | none => false
  | some n => n ≠ 0

/-- The JSON status object returned by the handler (the fields beyond
`status` are elided). -/
inductive WebhookReply
  /-- `{"status": "ok", ...}` for a ping. -/
  | pingOk
  /-- `{"status": "accepted", "issue": n, ...}`. -/
  | accepted (issue : Int)
  /-- `{"status": "ignored", ...}`. -/
  | ignored
  /-- `{"status": "error", ...}` (trigger script missing). -/
  | errorReply
deriving DecidableEq

/-- `github_webhook` (`sdlc/commands/watcher.py:319-418`): returns the reply
and whether a background workflow process was started
(`subprocess.Popen`).  `scriptExists` abstracts
`os.path.exists(scripts/adw_plan_build.py)`. -/
def github_webhook (e : WebhookEvent) (scriptExists : Bool) :
    WebhookReply × Bool :=
  if e.eventType = str "ping" then
    (.pingOk, false)
  else
    let should_trigger :=
      (e.eventType = str "issues" ∧ e.action = str "opened"
        ∧ truthyNum e.issueNumber)
      ∨ (e.eventType = str "issue_comment" ∧ e.action = str "created"
        ∧ truthyNum e.issueNumber
        ∧ lowerStr (stripWs e.commentBody) = str "adw")
    if should_trigger then
      if ¬ scriptExists then
        (.errorReply, false)
      else
        (.accepted (e.issueNumber.getD 0), true)
    else
      (.ignored, false)

/-! ## Webhook lifecycle (`sdlc/lib/webhook.py:ensure_webhook_configured`,
mirrored by `sdlc/lib/gitlab_webhook.py:ensure_webhook_configured`)

The provider-side webhook list is the state; the `gh api` delete and create
calls are modelled as succeeding (the claims quantify over provider states,
not provider faults), except that creation failure is kept as a parameter
because `ensure` reports it. -/

/-- One provider-side webhook registration. -/
structure WebhookReg where
  /-- The registration id. -/
  id : Nat
  /-- `config.url` (GitHub) / `url` (GitLab). -/
  url : Str
deriving DecidableEq

/-- The stale-endpoint test of `remove_devtunnel_webhooks`
(`webhook.py:183`): the URL contains the tunnel-vendor domain substring. -/
def isDevtunnelUrl (u : Str) : Bool := containsSub u (str "devtunnels.ms")

/-- `remove_devtunnel_webhooks` (`webhook.py:166-193`): delete every
registration whose URL is on the tunnel-vendor domain; returns the new state
and the deleted registrations. -/
def remove_devtunnel_webhooks (ws : List WebhookReg) :
    List WebhookReg × List WebhookReg :=
  (ws.filter (fun w => ¬ isDevtunnelUrl w.url),
    ws.filter (fun w => isDevtunnelUrl w.url))

/-- What one `ensure_webhook_configured` call returned and did. -/
structure EnsureOutcome where
  /-- The provider-side webhook list afterwards. -/
  state : List WebhookReg
  /-- The returned flag. -/
  ok : Bool
  /-- Registrations deleted by this call. -/
  deleted : List WebhookReg
  /-- Number of registrations created by this call. -/
  created : Nat
deriving DecidableEq

/-- `ensure_webhook_configured` (`webhook.py:196-232`): if some registration
already targets exactly `webhook_url`, do nothing; else prune vendor-domain
registrations and create a fresh one (`freshId` is the id the provider
assigns; `createOk` is whether the create call succeeds). -/
def ensure_webhook_configured (ws : List WebhookReg) (webhook_url : Str)
    (freshId : Nat) (createOk : Bool) : EnsureOutcome :=
  if ws.any (fun w => w.url = webhook_url) then
    { state := ws, ok := true, deleted := [], created := 0 }
  else
    let pruned := remove_devtunnel_webhooks ws
    if createOk then
      { state := pruned.1 ++ [⟨freshId, webhook_url⟩], ok := true,
        deleted := pruned.2, created := 1 }
    else
      { state := pruned.1, ok := false, deleted := pruned.2, created := 0 }


/-- Concrete environment for the C1 witness: branch invocation fails. -/
def c1Env : WorkflowEnv :=
  { claudeInstalled := true,
    classifyResp := ⟨str "/feature", true⟩,
    branchResp := ⟨str "branch boom", false⟩,
    planResp := ⟨str "plan", true⟩,
    commitEnv := ⟨.ok (), .ok (str "msg"), .ok ()⟩,
    gitStatus := .ok (str "?? specs/plan.md"),
    implementResp := ⟨str "done", true⟩,
    prResp := ⟨str "https://example.com/pr/1", true⟩,
    locateResp := ⟨str "specs/plan.md", true⟩,
    mrResult := .ok (some (str "https://example.com/mr/1")) }

/-- Concrete environment for the C2 witness: everything succeeds. -/
def c2Env : WorkflowEnv :=
  { claudeInstalled := true,
    classifyResp := ⟨str "/feature", true⟩,
    branchResp := ⟨str "feat-1-adw", true⟩,
    planResp := ⟨str "the plan", true⟩,
    commitEnv := ⟨.ok (), .ok (str "msg"), .ok ()⟩,
    gitStatus := .ok (str "?? specs/plan.md"),
    implementResp := ⟨str "done", true⟩,
    prResp := ⟨str "https://example.com/pr/1", true⟩,
    locateResp := ⟨str "specs/plan.md", true⟩,
    mrResult := .ok (some (str "https://example.com/mr/1")) }

/-- Modelled from the spec: the claim's reading of plan-only removal — only
the *first* matched span of the winning pattern is removed, the rest of the
text (including later spans) is kept.  Defined only to compare the claim with
the code, which removes every span (`re.sub` with default count 0). -/
def removeFirstCI (alts : List Str) : Str → Str
  | [] => []
  | c :: rest =>
    match ciMatchLen alts (c :: rest) with
    | some n => (c :: rest).drop n
    | none => c :: removeFirstCI alts rest

/-- Modelled from the spec: `parse_agent_command` as the claim reads it, with
single-span plan-only removal.  For comparison only. -/
def parse_agent_command_claim (comment_body : Str) : Option Str × Str × Bool :=
  let text := normalizeWs comment_body
  let step1 : Bool × Str :=
    match plan_only_patterns.find? (fun p => ciSearch p text) with
    | some p => (true, stripWs (removeFirstCI p text))
    | none => (false, text)
  match sdlcSearch step1.2 with
  | some (command, remaining) => (command, stripWs remaining, step1.1)
  | none => (none, stripWs (removeSdlcToken step1.2), step1.1)

/-! ## Claim theorems -/

/-- A successful alternation match consumes at least one character (the
fuel adequacy fact behind `removeAllCI`). -/
theorem ciMatchLen_pos {alts : List Str} {s : Str} {n : Nat}
    (h : ciMatchLen alts s = some n) : 1 ≤ n := by
  induction alts with
  | nil => simp [ciMatchLen] at h
  | cons a as ih =>
    rw [ciMatchLen, List.findSome?_cons] at h
    split at h
    · next heq =>
      split at heq
      · next hcond =>
        cases h
        cases heq
        cases a with
        | nil => exact absurd rfl hcond.1
        | cons _ _ => simp
      · exact absurd heq (by simp)
    · next heq => exact ih (by rw [ciMatchLen]; exact h)



/-- C10: `commit_changes` always attempts `git add .` first — before the
message-generation tool runs — and when staging succeeded but message
generation or commit creation fails it returns `(False, error detail)` with
the staging side effect still in place (no rollback). -/
theorem C10_commit_stages_first_and_never_rolls_back :
    ∀ env : CommitEnv,
      ((commit_changes env).ops = [.add] ∨ (commit_changes env).ops = [.add, .aipr]
        ∨ (commit_changes env).ops = [.add, .aipr, .commit])
      ∧ ((commit_changes env).ops.head? = some .add)
      ∧ (∀ e, env.addResult = .ok () → env.aiprResult = .error e →
          commit_changes env =
            { ok := false, error := some (str "Git commit failed: " ++ e),
              staged := true, ops := [.add, .aipr] })
      ∧ (∀ m e, env.addResult = .ok () → env.aiprResult = .ok m →
          env.commitResult = .error e →
          commit_changes env =
            { ok := false, error := some (str "Git commit failed: " ++ e),
              staged := true, ops := [.add, .aipr, .commit] }) := by
  rintro ⟨ar, br, cr⟩
  cases ar <;> cases br <;> cases cr <;>
    simp [commit_changes]

/-- Witness for C10 at a concrete environment where `aipr` fails. -/
theorem C10_witness :
    commit_changes ⟨.ok (), .error (str "boom"), .ok ()⟩ =
      { ok := false, error := some (str "Git commit failed: " ++ str "boom"),
        staged := true, ops := [.add, .aipr] } :=
  (C10_commit_stages_first_and_never_rolls_back
    ⟨.ok (), .error (str "boom"), .ok ()⟩).2.2.1 (str "boom") rfl rfl

/-- C9: when a registration already targets exactly the computed URL,
`ensure_webhook_configured` deletes nothing, creates nothing, and reports
success; calling `ensure` twice in succession with no external state change
leaves exactly one registration at that URL (the second call performs no
deletion and no creation); and the registrations it ever deletes all have a
URL on the tunnel-vendor domain.  The idempotence conjunct assumes the
initial provider state does not already hold duplicate registrations of the
same URL (the provider rejects those) and that the create call succeeds. -/
theorem C9_ensure_webhook_idempotent :
    (∀ (ws : List WebhookReg) (url : Str) (fid : Nat) (c : Bool),
      (∃ w ∈ ws, w.url = url) →
      ensure_webhook_configured ws url fid c =
        { state := ws, ok := true, deleted := [], created := 0 })
    ∧ (∀ (ws : List WebhookReg) (url : Str) (fid₁ fid₂ : Nat) (c₂ : Bool),
      ws.countP (fun w => w.url = url) ≤ 1 →
      (ensure_webhook_configured
          (ensure_webhook_configured ws url fid₁ true).state url fid₂ c₂).deleted = []
      ∧ (ensure_webhook_configured
          (ensure_webhook_configured ws url fid₁ true).state url fid₂ c₂).created = 0
      ∧ ((ensure_webhook_configured
          (ensure_webhook_configured ws url fid₁ true).state url fid₂ c₂).state.countP
            (fun w => w.url = url)) = 1)
    ∧ (∀ (ws : List WebhookReg) (url : Str) (fid : Nat) (c : Bool),
      ∀ w ∈ (ensure_webhook_configured ws url fid c).deleted,
        isDevtunnelUrl w.url = true) := by
  refine ⟨?_, ?_, ?_⟩
  · intro ws url fid c h
    have hany : ws.any (fun w => w.url = url) = true := by
      rw [List.any_eq_true]
      obtain ⟨w, hw, hu⟩ := h
      exact ⟨w, hw, by simp [hu]⟩
    simp [ensure_webhook_configured, hany]
  · intro ws url fid₁ fid₂ c₂ hcount
    by_cases hany : ws.any (fun w => w.url = url) = true
    · have hpos : 0 < ws.countP (fun w => w.url = url) := by
        rw [List.any_eq_true] at hany
        obtain ⟨w, hw, hu⟩ := hany
        rw [List.countP_pos_iff]
        exact ⟨w, hw, hu⟩
      have hone : ws.countP (fun w => w.url = url) = 1 := by omega
      simp [ensure_webhook_configured, hany, hone]
    · rw [Bool.not_eq_true] at hany
      have hmem : ∀ w ∈ ws, w.url ≠ url := by
        intro w hw hc
        have : ws.any (fun w => w.url = url) = true :=
          List.any_eq_true.mpr ⟨w, hw, by simp [hc]⟩
        rw [this] at hany
        exact Bool.noConfusion hany
      have hstate : (ensure_webhook_configured ws url fid₁ true).state =
          ws.filter (fun w => ¬ isDevtunnelUrl w.url)
            ++ ([⟨fid₁, url⟩] : List WebhookReg) := by
        simp [ensure_webhook_configured, hany, remove_devtunnel_webhooks]
      have hany₂ : (ws.filter (fun w => ¬ isDevtunnelUrl w.url)
          ++ ([⟨fid₁, url⟩] : List WebhookReg)).any (fun w => w.url = url) = true := by
        rw [List.any_eq_true]
        exact ⟨⟨fid₁, url⟩, by simp, by simp⟩
      have h0 : (ws.filter (fun w => ¬ isDevtunnelUrl w.url)).countP
          (fun w => w.url = url) = 0 := by
        rw [List.countP_eq_zero]
        intro w hw
        have := hmem w (List.mem_of_mem_filter hw)
        simpa using this
      have hcnt : ((ws.filter (fun w => ¬ isDevtunnelUrl w.url))
          ++ ([⟨fid₁, url⟩] : List WebhookReg)).countP (fun w => w.url = url) = 1 := by
        rw [List.countP_append, h0]
        simp
      rw [hstate]
      simp only [ensure_webhook_configured, hany₂, if_true]
      refine ⟨trivial, trivial, hcnt⟩
  · intro ws url fid c w hw
    by_cases hany : ws.any (fun w => w.url = url) = true
    · simp [ensure_webhook_configured, hany] at hw
    · rw [Bool.not_eq_true] at hany
      have hdel : (ensure_webhook_configured ws url fid c).deleted
          = ws.filter (fun w => isDevtunnelUrl w.url) := by
        cases c <;>
          simp [ensure_webhook_configured, hany, remove_devtunnel_webhooks]
      rw [hdel] at hw
      exact (List.mem_filter.mp hw).2

/-- Witness for C9 at a concrete provider state (one stale vendor-domain
registration, one foreign registration): the second `ensure` call deletes and
creates nothing, and exactly one registration targets the URL. -/
theorem C9_witness :
    (ensure_webhook_configured
      (ensure_webhook_configured
        [⟨1, str "https://old.devtunnels.ms/gh-webhook"⟩,
         ⟨2, str "https://ci.example.com/hook"⟩]
        (str "https://new.devtunnels.ms/gh-webhook") 7 true).state
      (str "https://new.devtunnels.ms/gh-webhook") 8 true).deleted = []
    ∧ (ensure_webhook_configured
      (ensure_webhook_configured
        [⟨1, str "https://old.devtunnels.ms/gh-webhook"⟩,
         ⟨2, str "https://ci.example.com/hook"⟩]
        (str "https://new.devtunnels.ms/gh-webhook") 7 true).state
      (str "https://new.devtunnels.ms/gh-webhook") 8 true).created = 0
    ∧ ((ensure_webhook_configured
      (ensure_webhook_configured
        [⟨1, str "https://old.devtunnels.ms/gh-webhook"⟩,
         ⟨2, str "https://ci.example.com/hook"⟩]
        (str "https://new.devtunnels.ms/gh-webhook") 7 true).state
      (str "https://new.devtunnels.ms/gh-webhook") 8 true).state.countP
        (fun w => w.url = str "https://new.devtunnels.ms/gh-webhook")) = 1 :=
  C9_ensure_webhook_idempotent.2.1
    [⟨1, str "https://old.devtunnels.ms/gh-webhook"⟩,
     ⟨2, str "https://ci.example.com/hook"⟩]
    (str "https://new.devtunnels.ms/gh-webhook") 7 8 true (by decide)

/-- C8: with the trigger script installed (`scriptExists = true`) and for
GitHub-shaped events (an `issue_comment` event always carries a valid issue
number), the handler starts a run exactly when the event is `issues`/`opened`
with a valid issue number, or `issue_comment`/`created` whose trimmed,
lowercased comment body is exactly `adw`; a `ping` event is answered with the
ok reply and no run; every other event is ignored with no run. -/
theorem C8_dispatcher_decision :
    ∀ e : WebhookEvent,
      (e.eventType = str "issue_comment" → truthyNum e.issueNumber = true) →
      ((github_webhook e true).2 = true ↔
        ((e.eventType = str "issues" ∧ e.action = str "opened"
            ∧ truthyNum e.issueNumber = true)
          ∨ (e.eventType = str "issue_comment" ∧ e.action = str "created"
            ∧ lowerStr (stripWs e.commentBody) = str "adw")))
      ∧ (e.eventType = str "ping" →
          github_webhook e true = (.pingOk, false))
      ∧ (e.eventType ≠ str "ping" → (github_webhook e true).2 = false →
          github_webhook e true = (.ignored, false)) := by
  intro e hwf
  by_cases hp : e.eventType = str "ping"
  · refine ⟨?_, fun _ => by simp [github_webhook, hp], fun hne => absurd hp hne⟩
    rw [github_webhook]
    simp only [hp, if_pos rfl]
    constructor
    · intro h
      exact absurd h (by simp)
    · rintro (⟨h, -⟩ | ⟨h, -⟩) <;> exact absurd h (by decide)
  · have htrig :
        ((e.eventType = str "issues" ∧ e.action = str "opened"
            ∧ truthyNum e.issueNumber = true)
          ∨ (e.eventType = str "issue_comment" ∧ e.action = str "created"
            ∧ truthyNum e.issueNumber = true
            ∧ lowerStr (stripWs e.commentBody) = str "adw"))
          ↔
        ((e.eventType = str "issues" ∧ e.action = str "opened"
            ∧ truthyNum e.issueNumber = true)
          ∨ (e.eventType = str "issue_comment" ∧ e.action = str "created"
            ∧ lowerStr (stripWs e.commentBody) = str "adw")) := by
      constructor
      · rintro (h | ⟨h₁, h₂, _, h₄⟩)
        · exact Or.inl h
        · exact Or.inr ⟨h₁, h₂, h₄⟩
      · rintro (h | ⟨h₁, h₂, h₃⟩)
        · exact Or.inl h
        · exact Or.inr ⟨h₁, h₂, hwf h₁, h₃⟩
    refine ⟨?_, fun hping => absurd hping hp, ?_⟩
    · rw [github_webhook]
      rw [if_neg hp]
      by_cases ht :
          (e.eventType = str "issues" ∧ e.action = str "opened"
            ∧ truthyNum e.issueNumber = true)
          ∨ (e.eventType = str "issue_comment" ∧ e.action = str "created"
            ∧ truthyNum e.issueNumber = true
            ∧ lowerStr (stripWs e.commentBody) = str "adw")
      · rw [if_pos ht]
        simp only [not_true, if_neg (by simp : ¬ (true = false)), htrig.mp ht]
        simp [htrig.mp ht]
      · rw [if_neg ht]
        simp only [htrig] at ht
        simp [ht]
    · intro _ hrun
      rw [github_webhook] at hrun ⊢
      rw [if_neg hp] at hrun ⊢
      by_cases ht :
          (e.eventType = str "issues" ∧ e.action = str "opened"
            ∧ truthyNum e.issueNumber = true)
          ∨ (e.eventType = str "issue_comment" ∧ e.action = str "created"
            ∧ truthyNum e.issueNumber = true
            ∧ lowerStr (stripWs e.commentBody) = str "adw")
      · rw [if_pos ht] at hrun
        simp at hrun
      · rw [if_neg ht]

/-- Witness for C8: a concrete `issues`/`opened` event with issue number 42
starts a run. -/
theorem C8_witness :
    (github_webhook ⟨str "issues", str "opened", some 42, str ""⟩ true).2 = true :=
  (C8_dispatcher_decision ⟨str "issues", str "opened", some 42, str ""⟩
    (by decide)).1.mpr (by decide)

/-- If the needle never occurs in the text, occurrence removal is the
identity, for any fuel. -/
theorem removeOccurrencesFuel_of_not_contains (old : Str) :
    ∀ (fuel : Nat) (s : Str), containsSub s old = false →
      removeOccurrencesFuel old fuel s = s := by
  intro fuel
  induction fuel with
  | zero => intro s _; rfl
  | succ f ih =>
    intro s hs
    cases s with
    | nil => rfl
    | cons c rest =>
      rw [containsSub, Bool.or_eq_false_iff] at hs
      rw [removeOccurrencesFuel, if_neg (by
        rintro ⟨-, hpre⟩
        rw [hs.1] at hpre
        exact Bool.noConfusion hpre)]
      rw [ih rest hs.2]

/-- Removing a nonempty needle from `needle ++ rest` when `rest` does not
contain the needle yields `rest`. -/
theorem removeOccurrences_append_self (old rest : Str) (hne : old ≠ [])
    (hrest : containsSub rest old = false) :
    removeOccurrences old (old ++ rest) = rest := by
  cases old with
  | nil => exact absurd rfl hne
  | cons o os =>
    rw [removeOccurrences]
    have hl : ((o :: os) ++ rest).length = (os.length + rest.length) + 1 := by
      simp only [List.length_append, List.length_cons]
      omega
    rw [hl]
    rw [show ((o :: os) ++ rest) = o :: (os ++ rest) from rfl]
    rw [removeOccurrencesFuel, if_pos ⟨hne, by
      have : (o :: os) <+: (o :: os) ++ rest := List.prefix_append _ _
      exact List.isPrefixOf_iff_prefix.mpr this⟩]
    rw [show (o :: (os ++ rest)).drop (o :: os).length = rest by
      simp only [List.length_cons, List.drop_succ_cons]
      exact List.drop_left os rest]
    exact removeOccurrencesFuel_of_not_contains _ _ _ hrest

/-- C3 counterexample: in a world where the user-defined command `/feature`
exists (and the plugin command also exists, the shipped configuration), the
resolver returns the namespaced form, not the user-defined base command — the
code's existence check deliberately reports `False` for every non-namespaced
command, so the user registry can never short-circuit resolution. -/
theorem C3_counterexample :
    (str "/feature") ∈
      (CommandWorld.mk [str "/feature"] [str "feature"]).userDefined
    ∧ resolve_slash_command
        (CommandWorld.mk [str "/feature"] [str "feature"]) (str "/feature")
        = str "/sdlc:feature"
    ∧ str "/sdlc:feature" ≠ str "/feature" := by
  refine ⟨by decide, by decide, by decide⟩

/-- C3 (amended): the resolver never consults the caller-local user-defined
registry (resolution is invariant under arbitrary changes to it), and for
every base command that is not itself namespaced (and whose name does not
embed the namespace marker), it returns the namespaced fallback
`/sdlc:<name>` exactly when that plugin command exists, and the original base
command unchanged otherwise. -/
theorem C3_resolution_order_amended :
    (∀ (u u' p : List Str) (base : Str),
      resolve_slash_command ⟨u, p⟩ base = resolve_slash_command ⟨u', p⟩ base)
    ∧ (∀ (w : CommandWorld) (base : Str),
      (str "/sdlc:").isPrefixOf base = false →
      containsSub (lstripSlash base) (str "/sdlc:") = false →
      resolve_slash_command w base =
        (if lstripSlash base ∈ w.pluginCommands
         then str "/sdlc:" ++ lstripSlash base
         else base)) := by
  constructor
  · intro u u' p base
    rfl
  · intro w base hpre hsub
    rw [resolve_slash_command]
    rw [if_neg (by
      rw [check_slash_command_exists, if_pos (by
        rw [hpre]
        exact Bool.noConfusion)]
      exact Bool.noConfusion)]
    have hcheck : check_slash_command_exists w (str "/sdlc:" ++ lstripSlash base)
        = (lstripSlash base ∈ w.pluginCommands : Bool) := by
      rw [check_slash_command_exists, if_neg (by
        intro hcon
        exact hcon (List.isPrefixOf_iff_prefix.mpr (List.prefix_append _ _)))]
      rw [removeOccurrences_append_self _ _ (by decide) hsub]
    by_cases hmem : lstripSlash base ∈ w.pluginCommands
    · rw [if_pos (by rw [hcheck]; simpa using hmem), if_pos hmem]
    · rw [if_neg (by rw [hcheck]; simpa using hmem), if_neg hmem]

/-- Witness for C3 (amended) at a concrete world holding only the plugin
command `feature`. -/
theorem C3_witness :
    resolve_slash_command ⟨[], [str "feature"]⟩ (str "/feature") =
      (if lstripSlash (str "/feature") ∈ ([str "feature"] : List Str)
       then str "/sdlc:" ++ lstripSlash (str "/feature")
       else str "/feature") :=
  C3_resolution_order_amended.2 ⟨[], [str "feature"]⟩ (str "/feature")
    (by decide) (by decide)

/-- The streaming fold keeps the *last* `session_id` and the *last* `result`
seen on parseable lines (empty output when no `result` ever appears). -/
theorem streamExtract_eq (lines : List OutLine) :
    streamExtract lines = (lastSessionId lines, (lastResultVal lines).getD (str "")) := by
  induction lines using List.reverseRecOn with
  | nil => rfl
  | append_singleton l x ih =>
    rw [streamExtract, List.foldl_append, List.foldl_cons, List.foldl_nil,
      ← streamExtract, ih]
    cases x with
    | invalid t =>
      simp [processLine, lastSessionId, lastResultVal, List.reverse_append,
        List.findSome?_cons]
    | json t p =>
      rcases p with ⟨sid, res⟩
      cases sid <;> cases res <;>
        simp [processLine, lastSessionId, lastResultVal, List.reverse_append,
          List.findSome?_cons]

/-- C4 counterexample: with two parseable lines each carrying a
`session_id`, the invoker returns the second one — the source has no
first-occurrence guard (`claude.py:109-110` assigns unconditionally), so the
claim's "first occurrence wins and is retained" is false. -/
theorem C4_counterexample :
    (execute_claude_command
      [OutLine.json (str "l1") ⟨some (str "first"), none⟩,
       OutLine.json (str "l2") ⟨some (str "second"), some (str "done")⟩]
      (.code 0) (str "")).1.2.2 = some (str "second")
    ∧ firstSessionId
      [OutLine.json (str "l1") ⟨some (str "first"), none⟩,
       OutLine.json (str "l2") ⟨some (str "second"), some (str "done")⟩]
      = some (str "first")
    ∧ (some (str "second") : Option Str) ≠ some (str "first") := by
  refine ⟨by decide, by decide, by decide⟩

/-- C4 (amended): on a successful invocation the returned `session_id` is
the value of the *last* parseable JSON line containing a `session_id` key
(each occurrence overwrites the running value), the returned output is the
value of the last parseable line containing a `result` key (empty string when
none occurs), and lines that are not valid JSON are skipped without effect or
error. -/
theorem C4_stream_extraction_amended :
    (∀ (lines : List OutLine) (stderr : Str),
      (execute_claude_command lines (.code 0) stderr).1 =
        (true, (lastResultVal lines).getD (str ""), lastSessionId lines))
    ∧ (∀ (l₁ l₂ : List OutLine) (t : Str),
      streamExtract (l₁ ++ OutLine.invalid t :: l₂) = streamExtract (l₁ ++ l₂)) := by
  constructor
  · intro lines stderr
    simp [execute_claude_command, streamExtract_eq]
  · intro l₁ l₂ t
    rw [streamExtract, streamExtract, List.foldl_append, List.foldl_append,
      List.foldl_cons]
    rfl

/-- C7 counterexample: an invocation whose stream carries a session id but
whose process exits nonzero *fails*, yet the transcript is renamed to the
session-id name — the rename (`claude.py:133-136`) runs before the exit code
is inspected (`claude.py:141`), so "renamed exactly when the invocation
succeeds" is false. -/
theorem C7_counterexample :
    (execute_claude_command
      [OutLine.json (str "e1") ⟨some (str "sid-1"), some (str "out")⟩]
      (.code 1) (str "err")).1.1 = false
    ∧ (execute_claude_command
      [OutLine.json (str "e1") ⟨some (str "sid-1"), some (str "out")⟩]
      (.code 1) (str "err")).2.path = TranscriptPath.bySession (str "sid-1")
    ∧ TranscriptPath.bySession (str "sid-1") ≠ TranscriptPath.provisional := by
  refine ⟨by decide, by decide, by decide⟩

/-- C7 (amended): the transcript is renamed to the session-keyed name exactly
when a session id was captured from the stream and the wait completed without
exception — regardless of the exit code; on the timeout (exception) path it
stays at the provisional name; and in every case its content is exactly the
streamed lines, in arrival order. -/
theorem C7_transcript_lifecycle_amended :
    ∀ (lines : List OutLine) (stderr : Str),
      (∀ n : Int,
        (execute_claude_command lines (.code n) stderr).2.path =
          (match lastSessionId lines with
           | some sid => TranscriptPath.bySession sid
           | none => TranscriptPath.provisional)
        ∧ (execute_claude_command lines (.code n) stderr).2.content
            = lines.map OutLine.text)
      ∧ (execute_claude_command lines .timedOut stderr).2.path
          = TranscriptPath.provisional
      ∧ (execute_claude_command lines .timedOut stderr).2.content
          = lines.map OutLine.text := by
  intro lines stderr
  refine ⟨fun n => ?_, rfl, rfl⟩
  cases hsid : lastSessionId lines with
  | none =>
    by_cases hn : n ≠ 0 <;>
      constructor <;>
        simp [execute_claude_command, streamExtract_eq, hsid, hn]
  | some sid =>
    by_cases hn : n ≠ 0 <;>
      constructor <;>
        simp [execute_claude_command, streamExtract_eq, hsid, hn]

/-- The head of a filtered list is the first element satisfying the filter. -/
theorem find?_filter_head {α : Type} (r : α → Bool) (ls : List α) :
    (ls.filter r).head? = ls.find? r := by
  induction ls with
  | nil => rfl
  | cons a t ih =>
    by_cases h : r a <;> simp [List.filter_cons, List.find?_cons, h, ih]

/-- The spec-file collection loop of `locate_plan_file` is the filter-map of
the combined line predicate. -/
theorem locate_spec_files_eq (ls : List Str) :
    (ls.filter (fun l => l ≠ [])).filterMap
        (fun line => if specLineMatch line then some (stripWs (line.drop 3)) else none)
      = (ls.filter (fun l => l ≠ [] && specLineMatch l)).map
          (fun line => stripWs (line.drop 3)) := by
  induction ls with
  | nil => rfl
  | cons a t ih =>
    by_cases h1 : a = []
    · simpa [h1, List.filter_cons] using ih
    · by_cases h2 : specLineMatch a <;>
        simpa [List.filter_cons, List.filterMap_cons, h1, h2] using ih

/-- C6 counterexample: a status listing holding only a *modified* tracked
markdown file under `specs/` — per the claim this has zero new/untracked
matches and must be the hard failure, but the source never inspects the
status code and succeeds; moreover the whole-output strip removes the leading
space of the first line's status code, so the extracted path is shifted by
one character. -/
theorem C6_counterexample :
    locate_plan_file (.ok (str " M specs/old.md")) = (some (str "pecs/old.md"), none)
    ∧ locate_plan_file_claim (.ok (str " M specs/old.md"))
        = (none, some (str "No plan file found in git status"))
    ∧ ((some (str "pecs/old.md"), (none : Option Str)) ≠
        ((none : Option Str), some (str "No plan file found in git status"))) := by
  refine ⟨by decide, by decide, by decide⟩

/-- C6 (amended): on a successful `git status` call, `locate_plan_file`
selects every non-empty line of the stripped output that contains `specs/`
(or `ai-specs/`) and ends in `.md` — the two-character status code is not
inspected, so tracked modified files qualify too; it returns, for the first
such line in listing order, the text after the line's first three characters
(stripped), and the hard failure exactly when no line matches.  A failing
`git status` yields the git error. -/
theorem C6_locate_plan_file_amended :
    (∀ out : Str,
      locate_plan_file (.ok out) =
        (match ((stripWs out).splitOn '\n').find?
            (fun l => l ≠ [] && specLineMatch l) with
         | some l => (some (stripWs (l.drop 3)), none)
         | none => (none, some (str "No plan file found in git status"))))
    ∧ (∀ e : Str, locate_plan_file (.error e)
        = (none, some (str "Git status failed: " ++ e))) := by
  constructor
  · intro out
    rw [locate_plan_file, locate_spec_files_eq, ← find?_filter_head]
    cases h : ((stripWs out).splitOn '\n').filter (fun l => l ≠ [] && specLineMatch l) with
    | nil => simp [h]
    | cons a t => simp [h]
  · intro e
    rfl

/-- Every failure return of the invoker carries a nonempty error message
(`Claude command failed with code ...` / `... timed out ...`); this backs the
nonempty-error hypotheses of the workflow claims, since step errors are
invoker outputs. -/
theorem invoker_failure_output_nonempty (lines : List OutLine) (stderr : Str) :
    (∀ n : Int, n ≠ 0 →
      (execute_claude_command lines (.code n) stderr).1.2.1 ≠ [])
    ∧ (execute_claude_command lines .timedOut stderr).1.2.1 ≠ [] := by
  constructor
  · intro n hn
    simp only [execute_claude_command, hn]
    simp [hn]
    intro h1
    exact absurd h1 (by decide)
  · intro h
    simp only [execute_claude_command] at h
    have : str "Claude command timed out after 600 seconds" ≠ [] := by decide
    exact this h

/-- C1: in every run where the CREATE_BRANCH step fails (the `/branch`
invocation reports failure, with the nonempty error detail the invoker always
produces), after the command was determined (explicitly or by a successful
classification), the workflow returns `(False, error detail)`, posts exactly
one failure comment, and never invokes BUILD_PLAN, LOCATE_PLAN_FILE,
IMPLEMENT, COMMIT or OPEN_REQUEST. -/
theorem C1_branch_failure_short_circuit :
    ∀ (env : WorkflowEnv) (adw_id : Str) (explicit_command : Option Str)
      (plan_only : Bool),
      env.claudeInstalled = true →
      (truthy explicit_command = true
        ∨ truthy (classify_issue env.classifyResp).2 = false) →
      env.branchResp.success = false →
      env.branchResp.output ≠ [] →
      (execute_agent_workflow env adw_id explicit_command plan_only).ok = false
      ∧ (execute_agent_workflow env adw_id explicit_command plan_only).error
          = some env.branchResp.output
      ∧ (execute_agent_workflow env adw_id explicit_command plan_only).comments.countP
          isFailureComment = 1
      ∧ Step.createBranch
          ∈ (execute_agent_workflow env adw_id explicit_command plan_only).steps
      ∧ Step.buildPlan
          ∉ (execute_agent_workflow env adw_id explicit_command plan_only).steps
      ∧ Step.locatePlanFile
          ∉ (execute_agent_workflow env adw_id explicit_command plan_only).steps
      ∧ Step.implement
          ∉ (execute_agent_workflow env adw_id explicit_command plan_only).steps
      ∧ Step.commitStep
          ∉ (execute_agent_workflow env adw_id explicit_command plan_only).steps
      ∧ Step.openRequest
          ∉ (execute_agent_workflow env adw_id explicit_command plan_only).steps := by
  intro env adw_id ec plan_only hInst hcmd hBr hne
  have hcb : create_branch env.branchResp = (none, some env.branchResp.output) := by
    rw [create_branch, if_pos (by simp [hBr])]
  have htr : truthy (some env.branchResp.output) = true := by simp [truthy, hne]
  by_cases hec : truthy ec = true
  · rw [execute_agent_workflow]
    rw [if_neg (by simp [hInst])]
    simp only [hec, if_true, hcb, htr]
    refine ⟨by simp, by simp, ?_, by simp, by simp, by simp, by simp, by simp, by simp⟩
    show List.countP isFailureComment
      ([str "✅ Using command: " ++ pyFormatOpt ec ++ (str " (ADW ID: " ++ adw_id ++ str ")")]
        ++ [str "❌ Branch creation failed: " ++ pyFormatOpt (some env.branchResp.output)
          ++ (str " (ADW ID: " ++ adw_id ++ str ")")]) = 1
    rfl
  · rcases hcmd with h | hcl
    · exact absurd h hec
    · rw [execute_agent_workflow]
      rw [if_neg (by simp [hInst])]
      simp only [hec, if_false, Bool.false_eq_true, hcl, hcb, htr]
      refine ⟨by simp [hcl], by simp [hcl], ?_, by simp [hcl], by simp [hcl],
        by simp [hcl], by simp [hcl], by simp [hcl], by simp [hcl]⟩
      show List.countP isFailureComment
        ([str "✅ Classified as: " ++ pyFormatOpt (classify_issue env.classifyResp).1
            ++ (str " (ADW ID: " ++ adw_id ++ str ")")]
          ++ [str "❌ Branch creation failed: " ++ pyFormatOpt (some env.branchResp.output)
            ++ (str " (ADW ID: " ++ adw_id ++ str ")")]) = 1
      rfl


/-- Witness for C1 at a concrete failing-branch run. -/
theorem C1_witness :
    (execute_agent_workflow c1Env (str "adw-1") (some (str "/chore")) false).ok = false
    ∧ (execute_agent_workflow c1Env (str "adw-1") (some (str "/chore")) false).error
        = some (str "branch boom")
    ∧ Step.buildPlan
        ∉ (execute_agent_workflow c1Env (str "adw-1") (some (str "/chore")) false).steps :=
  ⟨(C1_branch_failure_short_circuit c1Env (str "adw-1") (some (str "/chore")) false
      (by decide) (Or.inl (by decide)) (by decide) (by decide)).1,
   (C1_branch_failure_short_circuit c1Env (str "adw-1") (some (str "/chore")) false
      (by decide) (Or.inl (by decide)) (by decide) (by decide)).2.1,
   (C1_branch_failure_short_circuit c1Env (str "adw-1") (some (str "/chore")) false
      (by decide) (Or.inl (by decide)) (by decide) (by decide)).2.2.2.2.1⟩

/-- C2: in plan-only mode, when the command is determined (explicitly or by a
successful classification) and CREATE_BRANCH, BUILD_PLAN and the plan commit
all succeed, both provider variants of the workflow return success after
exactly one commit step, and LOCATE_PLAN_FILE, IMPLEMENT and OPEN_REQUEST are
never invoked. -/
theorem C2_plan_only_mode :
    (∀ (env : WorkflowEnv) (adw_id : Str) (explicit_command : Option Str),
      env.claudeInstalled = true →
      (truthy explicit_command = true
        ∨ truthy (classify_issue env.classifyResp).2 = false) →
      env.branchResp.success = true →
      env.planResp.success = true →
      (commit_changes env.commitEnv).ok = true →
      (execute_agent_workflow env adw_id explicit_command true).ok = true
      ∧ (execute_agent_workflow env adw_id explicit_command true).error = none
      ∧ ((execute_agent_workflow env adw_id explicit_command true).steps.countP
          (fun s => s = Step.commitStep)) = 1
      ∧ Step.locatePlanFile
          ∉ (execute_agent_workflow env adw_id explicit_command true).steps
      ∧ Step.implement
          ∉ (execute_agent_workflow env adw_id explicit_command true).steps
      ∧ Step.openRequest
          ∉ (execute_agent_workflow env adw_id explicit_command true).steps)
    ∧ (∀ (env : WorkflowEnv) (adw_id : Str) (explicit_command : Option Str),
      env.claudeInstalled = true →
      (truthy explicit_command = true
        ∨ truthy (classify_gitlab_issue env.classifyResp).2 = false) →
      env.branchResp.success = true →
      env.planResp.success = true →
      (commit_changes env.commitEnv).ok = true →
      (execute_gitlab_agent_workflow env adw_id explicit_command true).ok = true
      ∧ (execute_gitlab_agent_workflow env adw_id explicit_command true).error = none
      ∧ ((execute_gitlab_agent_workflow env adw_id explicit_command true).steps.countP
          (fun s => s = Step.commitStep)) = 1
      ∧ Step.locatePlanFile
          ∉ (execute_gitlab_agent_workflow env adw_id explicit_command true).steps
      ∧ Step.implement
          ∉ (execute_gitlab_agent_workflow env adw_id explicit_command true).steps
      ∧ Step.openRequest
          ∉ (execute_gitlab_agent_workflow env adw_id explicit_command true).steps) := by
  constructor
  · intro env adw_id ec hInst hcmd hBr hPl hCo
    have hcb : create_branch env.branchResp
        = (some (stripWs env.branchResp.output), none) := by
      rw [create_branch, if_neg (by simp [hBr])]
    have hbp : build_plan env.planResp = (some env.planResp.output, none) := by
      rw [build_plan, if_neg (by simp [hPl])]
    by_cases hec : truthy ec = true
    · rw [execute_agent_workflow]
      rw [if_neg (by simp [hInst])]
      simp only [hec, if_true, hcb, hbp]
      simp [truthy, hCo]
    · rcases hcmd with h | hcl
      · exact absurd h hec
      · rw [execute_agent_workflow]
        rw [if_neg (by simp [hInst])]
        simp only [hec, if_false, Bool.false_eq_true, hcl, hcb, hbp]
        simp [truthy, hcl, hCo]
  · intro env adw_id ec hInst hcmd hBr hPl hCo
    have hcb : create_gitlab_branch env.branchResp
        = (some (stripWs env.branchResp.output), none) := by
      rw [create_gitlab_branch, if_neg (by simp [hBr])]
    have hbp : build_gitlab_plan env.planResp = (some env.planResp.output, none) := by
      rw [build_gitlab_plan, if_neg (by simp [hPl])]
    by_cases hec : truthy ec = true
    · rw [execute_gitlab_agent_workflow]
      rw [if_neg (by simp [hInst])]
      simp only [hec, if_true, hcb, hbp]
      simp [truthy, hCo]
    · rcases hcmd with h | hcl
      · exact absurd h hec
      · rw [execute_gitlab_agent_workflow]
        rw [if_neg (by simp [hInst])]
        simp only [hec, if_false, Bool.false_eq_true, hcl, hcb, hbp]
        simp [truthy, hcl, hCo]


/-- Witness for C2 at a concrete all-success plan-only run (GitHub variant,
with classification). -/
theorem C2_witness :
    (execute_agent_workflow c2Env (str "adw-2") none true).ok = true
    ∧ ((execute_agent_workflow c2Env (str "adw-2") none true).steps.countP
        (fun s => s = Step.commitStep)) = 1
    ∧ Step.implement ∉ (execute_agent_workflow c2Env (str "adw-2") none true).steps :=
  ⟨(C2_plan_only_mode.1 c2Env (str "adw-2") none (by decide)
      (Or.inr (by decide)) (by decide) (by decide) (by decide)).1,
   (C2_plan_only_mode.1 c2Env (str "adw-2") none (by decide)
      (Or.inr (by decide)) (by decide) (by decide) (by decide)).2.2.1,
   (C2_plan_only_mode.1 c2Env (str "adw-2") none (by decide)
      (Or.inr (by decide)) (by decide) (by decide) (by decide)).2.2.2.2.1⟩


/-- A string whose head is not whitespace survives `dropWhile`. -/
theorem dropWhile_ws_eq_self (r : Str) (h : r.head?.any Char.isWhitespace = false) :
    r.dropWhile Char.isWhitespace = r := by
  cases r with
  | nil => rfl
  | cons c t =>
    simp only [List.head?_cons, Option.any_some] at h
    rw [List.dropWhile_cons, if_neg (by simp [h])]

/-- No alternative is a case-insensitive prefix ⇒ the alternation match
fails. -/
theorem ciMatchLen_eq_none_of_no_prefix (alts : List Str) (s : Str)
    (h : ∀ a ∈ alts, ¬ a <+: lowerStr s) : ciMatchLen alts s = none := by
  rw [ciMatchLen, List.findSome?_eq_none_iff]
  intro a ha
  rw [if_neg]
  rintro ⟨hne, heq⟩
  apply h a ha
  have hmt : lowerStr (s.take a.length) = (lowerStr s).take a.length := by
    simp [lowerStr, List.map_take]
  rw [hmt] at heq
  rw [← heq]
  exact List.take_prefix _ _

/-- C5 counterexample: on a comment holding the winning plan-only phrasing
twice, the source removes *both* spans (`re.sub` removes every occurrence),
so the remaining text differs from the claim's "the first matched span is
removed". -/
theorem C5_counterexample :
    parse_agent_command (str "sdlc x plan only y plan only")
      = (none, str "x  y", true)
    ∧ parse_agent_command_claim (str "sdlc x plan only y plan only")
      = (none, str "x  y plan only", true)
    ∧ ((none : Option Str), str "x  y", true)
      ≠ ((none : Option Str), str "x  y plan only", true) := by
  refine ⟨by decide, by decide, by decide⟩

/-- C5 (amended): (1) `plan_only` is true exactly when one of the fixed
plan-only phrasings occurs case-insensitively in the whitespace-normalized
comment; the winning pattern is the first in the fixed order, and *every*
span of it is removed from the text (a later distinct phrasing may remain).
(2) When the normalized, flag-free comment is the trigger word followed by
one of the three selectors and trimmed text, `explicit_command` is that
selector and `remaining_text` is the text after it.  (3) When the trigger
word appears without a selector, `explicit_command` is absent and
`remaining_text` is everything after the keyword.  The claim's two examples
hold verbatim. -/
theorem C5_comment_parser_amended :
    (∀ s : Str, (parse_agent_command s).2.2
      = plan_only_patterns.any (fun p => ciSearch p (normalizeWs s)))
    ∧ (∀ (s cmd r : Str), cmd ∈ commandAlts →
      normalizeWs s = str "sdlc " ++ (cmd ++ ' ' :: r) →
      (∀ p ∈ plan_only_patterns, ciSearch p (normalizeWs s) = false) →
      r.head?.any Char.isWhitespace = false →
      stripWs r = r →
      parse_agent_command s = (some cmd, r, false))
    ∧ (∀ (s r : Str),
      normalizeWs s = str "sdlc" ++ ' ' :: r →
      (∀ p ∈ plan_only_patterns, ciSearch p (normalizeWs s) = false) →
      (∀ a ∈ commandAlts, ¬ a <+: lowerStr r) →
      r.head?.any Char.isWhitespace = false →
      stripWs r = r →
      parse_agent_command s = (none, r, false))
    ∧ parse_agent_command (str "sdlc /chore fix this bug")
      = (some (str "/chore"), str "fix this bug", false)
    ∧ parse_agent_command (str "sdlc please implement this")
      = (none, str "please implement this", false) := by
  refine ⟨?_, ?_, ?_, by decide, by decide⟩
  · intro s
    rw [parse_agent_command]
    cases hf : plan_only_patterns.find? (fun p => ciSearch p (normalizeWs s)) with
    | none =>
      have hany : plan_only_patterns.any (fun p => ciSearch p (normalizeWs s)) = false := by
        rw [List.any_eq_false]
        intro p hp
        have := List.find?_eq_none.mp hf p hp
        simpa using this
      rw [hany]
      cases hs : sdlcSearch (normalizeWs s) with
      | none => rfl
      | some v => rcases v with ⟨a, b⟩; rfl
    | some p =>
      have hany : plan_only_patterns.any (fun p => ciSearch p (normalizeWs s)) = true := by
        have hprop : ciSearch p (normalizeWs s) = true := by
          have h2 := List.find?_some hf
          simpa using h2
        exact List.any_eq_true.mpr ⟨p, List.mem_of_find?_eq_some hf, hprop⟩
      rw [hany]
      cases hs : sdlcSearch (stripWs (removeAllCI p (normalizeWs s))) with
      | none => rfl
      | some v => rcases v with ⟨a, b⟩; rfl
  · intro s cmd r hcmd h0 hplan hhead hstrip
    have hfind : plan_only_patterns.find? (fun p => ciSearch p (normalizeWs s)) = none :=
      List.find?_eq_none.mpr (fun p hp => by simp [hplan p hp])
    simp only [parse_agent_command, hfind]
    rw [h0]
    simp only [commandAlts, List.mem_cons, List.not_mem_nil, or_false] at hcmd
    rcases hcmd with rfl | rfl | rfl
    · refine Eq.trans
        (?_ : _ = (some (str "/feature"), stripWs (r.dropWhile Char.isWhitespace), false)) ?_
      · rfl
      · rw [dropWhile_ws_eq_self r hhead, hstrip]
    · refine Eq.trans
        (?_ : _ = (some (str "/bug"), stripWs (r.dropWhile Char.isWhitespace), false)) ?_
      · rfl
      · rw [dropWhile_ws_eq_self r hhead, hstrip]
    · refine Eq.trans
        (?_ : _ = (some (str "/chore"), stripWs (r.dropWhile Char.isWhitespace), false)) ?_
      · rfl
      · rw [dropWhile_ws_eq_self r hhead, hstrip]
  · intro s r h0 hplan hsel hhead hstrip
    have hfind : plan_only_patterns.find? (fun p => ciSearch p (normalizeWs s)) = none :=
      List.find?_eq_none.mpr (fun p hp => by simp [hplan p hp])
    have hdw : List.dropWhile Char.isWhitespace r = r := dropWhile_ws_eq_self r hhead
    have hml : ciMatchLen commandAlts r = none :=
      ciMatchLen_eq_none_of_no_prefix _ _ hsel
    simp only [parse_agent_command, hfind]
    rw [h0]
    have hsm : sdlcMatchAt ('s' :: 'd' :: 'l' :: 'c' :: ' ' :: r) = some (none, r) := by
      have h1 : sdlcMatchAt ('s' :: 'd' :: 'l' :: 'c' :: ' ' :: r)
          = (match ciMatchLen commandAlts (List.dropWhile Char.isWhitespace r) with
             | some n => some (some ((List.dropWhile Char.isWhitespace r).take n),
                 ((List.dropWhile Char.isWhitespace r).drop n).dropWhile Char.isWhitespace)
             | none => some (none, List.dropWhile Char.isWhitespace r)) := rfl
      rw [h1, hdw, hml]
    have hss : sdlcSearch ('s' :: 'd' :: 'l' :: 'c' :: ' ' :: r) = some (none, r) := by
      rw [show sdlcSearch ('s' :: 'd' :: 'l' :: 'c' :: ' ' :: r)
          = (match sdlcMatchAt ('s' :: 'd' :: 'l' :: 'c' :: ' ' :: r) with
             | some res => some res
             | none => sdlcSearch ('d' :: 'l' :: 'c' :: ' ' :: r)) from rfl, hsm]
    rw [show (str "sdlc" ++ ' ' :: r) = ('s' :: 'd' :: 'l' :: 'c' :: ' ' :: r) from rfl, hss]
    show (none, stripWs r, false) = ((none : Option Str), r, false)
    rw [hstrip]

/-- Witness for C5 (amended) applying the trigger-plus-selector conjunct at a
concrete comment. -/
theorem C5_witness :
    parse_agent_command (str "sdlc /bug fix it")
      = (some (str "/bug"), str "fix it", false) :=
  C5_comment_parser_amended.2.1 (str "sdlc /bug fix it") (str "/bug") (str "fix it")
    (by decide) (by decide) (by decide) (by decide) (by decide)
